import Mathlib

/-!
Verification of the `subway` JSON-RPC gateway's server wiring
(`src/server.rs`, `start_server`) against its natural-language
specification.  The per-method middleware chain construction, the
registered call and subscription handlers, the `rpc_methods`
introspection list and the alias/registration sequence are embedded
from the source; the chain-walking execution model and the external
registration layer, whose code is not part of the shown source file,
are modelled from the specification (sections 4.1-4.5 and 6) and are
marked as such in their doc comments.
-/

/-- JSON values, standing in for `serde_json::Value` (`JsonValue`). -/
inductive Json where
  | null : Json
  | bool : Bool → Json
  | num : Int → Json
  | str : String → Json
  | arr : List Json → Json

/-- The accessor `Value::as_array`: `some` exactly on JSON arrays. -/
def Json.asArray : Json → Option (List Json)
  | Json.arr xs => some xs
  | _ => none

/-- The call-error shapes used by `start_server`:
`CallError::InvalidParams` and `CallError::Failed`. -/
inductive CallError where
  | invalidParams : String → CallError
  | failed : String → CallError
deriving DecidableEq

/-- Rendering of an error for the log line (the `{}` in `log::error!`). -/
def CallError.render : CallError → String
  | CallError.invalidParams m => m
  | CallError.failed m => m

/-- One entry of `config.rpcs.methods`: method name, optional
block-hash injection index, optional block-number injection index,
cache capacity (`0` = disabled). -/
structure MethodConfig where
  method : String
  with_block_hash : Option Nat
  with_block_number : Option Nat
  cache : Nat
deriving DecidableEq

/-- One entry of `config.rpcs.subscriptions`: notification name,
subscribe method name, unsubscribe method name. -/
structure SubscriptionConfig where
  name : String
  subscribe : String
  unsubscribe : String
deriving DecidableEq

/-- The `config.rpcs` section: methods, subscriptions, and
(old-name, new-name) aliases. -/
structure RpcsConfig where
  methods : List MethodConfig
  subscriptions : List SubscriptionConfig
  aliases : List (String × String)
deriving DecidableEq

/-- The injection kinds `Inject::BlockHashAt` / `Inject::BlockNumberAt`. -/
inductive Inject where
  | blockHashAt : Nat → Inject
  | blockNumberAt : Nat → Inject
deriving DecidableEq

/-- One middleware stage as pushed onto the per-method list in
`start_server`: a parameter-injection stage, a cache stage carrying the
capacity of its freshly constructed per-method `Cache`, or the shared
upstream-forwarding stage. -/
inductive Stage where
  | injectParams : Inject → Stage
  | cacheStage : Nat → Stage
  | upstream : Stage
deriving DecidableEq

/-- The per-method stage list built by the loop at `server.rs` lines
47-68: push a block-hash injector when `with_block_hash` is set, then a
block-number injector when `with_block_number` is set, then a cache
stage when `method.cache > 0` (with a fresh `Cache` of exactly that
capacity), then always the upstream-forwarding stage. -/
def buildMethodChain (m : MethodConfig) : List Stage :=
  let list : List Stage := []
  let list : List Stage :=
    match m.with_block_hash with
    | some hash_index => list ++ [Stage.injectParams (Inject.blockHashAt hash_index)]
    | none => list
  let list : List Stage :=
    match m.with_block_number with
    | some number_index => list ++ [Stage.injectParams (Inject.blockNumberAt number_index)]
    | none => list
  let list : List Stage :=
    if m.cache > 0 then list ++ [Stage.cacheStage m.cache] else list
  list ++ [Stage.upstream]

/-- The stage list built for every subscription at `server.rs` line
144: exactly the subscription upstream-forwarding stage. -/
def buildSubscriptionChain : List Stage :=
  [Stage.upstream]

/-- A unary call request: method name and positional JSON parameters
(`CallRequest::new(method_name, params)`). -/
structure CallRequest where
  method : String
  params : List Json

/-- The terminal fallback closure passed to `Middlewares::new` at
`server.rs` lines 72-82 (and identically at lines 145-155): it ignores
the request and immediately returns a `CallError::Failed` with message
"Bad configuration". -/
def fallbackFn : CallRequest → Except CallError Json :=
  fun _ => Except.error (CallError.failed "Bad configuration")

/-- Environment of externally supplied behaviours for the stages whose
implementations live outside the shown source file: the result of
resolving an injection against the chain head, per-capacity cache
lookup, and the upstream client's answer. -/
structure Env where
  injectResult : Inject → List Json → Except CallError (List Json)
  cacheHit : Nat → CallRequest → Option Json
  upstreamResult : CallRequest → Except CallError Json

/-- Modelled from the spec: the chain-walking execution of
`Middlewares::call` (spec sections 4.1-4.5; the `middleware` module is
not part of the shown source).  Each stage either short-circuits or
delegates to the rest of the chain: an injector rewrites the parameters
and delegates, failing the request when resolution fails; a cache stage
answers a hit itself and delegates on a miss (storing on success does
not change the returned result); the upstream stage returns the
upstream client's result and never delegates.  The terminal fallback —
embedded from the source as `fallbackFn` — runs only when the explicit
stage list is exhausted.  The second component records whether the
terminal fallback was invoked. -/
def runChain (env : Env) : List Stage → CallRequest → Except CallError Json × Bool
  | [], req => (fallbackFn req, true)
  | Stage.injectParams inj :: rest, req =>
    match env.injectResult inj req.params with
    | Except.error e => (Except.error e, false)
    | Except.ok ps => runChain env rest { req with params := ps }
  | Stage.cacheStage cap :: rest, req =>
    match env.cacheHit cap req with
    | some v => (Except.ok v, false)
    | none => runChain env rest req
  | Stage.upstream :: _, req => (env.upstreamResult req, false)

/-- A trivial concrete environment: injections succeed without
rewriting, the cache always misses, the upstream returns `null`. -/
def envNoop : Env where
  injectResult := fun _ ps => Except.ok ps
  cacheHit := fun _ _ => none
  upstreamResult := fun _ => Except.ok Json.null

/-- The async handler registered for each method at `server.rs` lines
86-100, as a function of the chain and of the outcome of
`params.parse::<JsonValue>()` (a parse failure propagates the layer's
`InvalidParams` error through `?`).  A parsed value that is not a JSON
array fails with `CallError::InvalidParams("invalid params")`; only an
array reaches `middlewares.call`, whose result is awaited and returned
as-is.  The second component counts how many times the chain was
invoked. -/
def registeredCallHandler (chain : List Json → Except CallError Json)
    (parsed : Except CallError Json) : Except CallError Json × Nat :=
  match parsed with
  | Except.error e => (Except.error e, 0)
  | Except.ok v =>
    match v.asArray with
    | none => (Except.error (CallError.invalidParams "invalid params"), 0)
    | some ps => (chain ps, 1)

/-- The body of the task spawned at `server.rs` lines 167-179: await
the chain invocation and, when it returned an error, emit exactly one
log line; no error value escapes the task. -/
def relayTaskLogs (res : Except CallError Unit) : List String :=
  match res with
  | Except.error e => ["Error while handling subscription: " ++ CallError.render e]
  | Except.ok _ => []

/-- The subscription handler registered at `server.rs` lines 162-181,
as a function of the eventual outcome of the spawned chain invocation:
it spawns the relay task and returns `Ok(())` to the registration layer
immediately, so its returned value is `Except.ok ()` for every chain
outcome; the outcome is consumed only by the spawned task, whose
observable effect is its log output. -/
def registerSubscriptionHandler (chainOutcome : Except CallError Unit) :
    Except CallError Unit × List String :=
  (Except.ok (), relayTaskLogs chainOutcome)

/-- The `rpc_methods` introspection list built at `server.rs` lines
103-123: all configured method names, then all subscribe names, then
all unsubscribe names, then all alias new names, concatenated in that
order with no deduplication. -/
def rpcMethodsList (cfg : RpcsConfig) : List String :=
  cfg.methods.map (fun m => m.method)
    ++ cfg.subscriptions.map (fun s => s.subscribe)
    ++ cfg.subscriptions.map (fun s => s.unsubscribe)
    ++ cfg.aliases.map (fun a => a.2)

/-- Modelled from the spec: registering one name with the external
registration layer (`RpcModule`), which per the spec's method-table
invariant rejects a name that is already registered (duplicate
registration is a startup-time configuration error). -/
def registerName (seen : List String) (n : String) : Except String (List String) :=
  if n ∈ seen then Except.error ("duplicate method name: " ++ n)
  else Except.ok (n :: seen)

/-- Registering a list of names in order, stopping at the first
failure (each `?` in `start_server` propagates the registration
error). -/
def registerAllNames (seen : List String) : List String → Except String (List String)
  | [] => Except.ok seen
  | n :: ns =>
    match registerName seen n with
    | Except.error e => Except.error e
    | Except.ok seen2 => registerAllNames seen2 ns

/-- The names `start_server` registers, in source order: each
configured method (lines 86-100), the synthetic `rpc_methods` method
(line 125), each subscription's subscribe and unsubscribe names (lines
158-182), and each alias's new name (lines 185-189). -/
def registrationNames (cfg : RpcsConfig) : List String :=
  cfg.methods.map (fun m => m.method)
    ++ ["rpc_methods"]
    ++ cfg.subscriptions.flatMap (fun s => [s.subscribe, s.unsubscribe])
    ++ cfg.aliases.map (fun a => a.2)

/-- The registration phase of `start_server`: register every name in
order against an initially empty registry; an error anywhere aborts
startup. -/
def startServerRegistration (cfg : RpcsConfig) : Except String (List String) :=
  registerAllNames [] (registrationNames cfg)

/-- The injector stage contributed by `with_block_hash`, as the spec
orders the chain: present exactly when the index is configured. -/
def hashInjectorPart (m : MethodConfig) : List Stage :=
  match m.with_block_hash with
  | some i => [Stage.injectParams (Inject.blockHashAt i)]
  | none => []

/-- The injector stage contributed by `with_block_number`. -/
def numberInjectorPart (m : MethodConfig) : List Stage :=
  match m.with_block_number with
  | some i => [Stage.injectParams (Inject.blockNumberAt i)]
  | none => []

/-- The cache stage as the spec orders the chain: present exactly when
the method enables caching (capacity strictly positive). -/
def cacheStagePart (m : MethodConfig) : List Stage :=
  if 0 < m.cache then [Stage.cacheStage m.cache] else []

theorem buildMethodChain_eq (m : MethodConfig) :
    buildMethodChain m =
      hashInjectorPart m ++ numberInjectorPart m ++ cacheStagePart m ++ [Stage.upstream] := by
  rcases m with ⟨name, hb, hn, c⟩
  cases hb <;> cases hn <;>
      simp [buildMethodChain, hashInjectorPart, numberInjectorPart, cacheStagePart] <;>
    split <;> simp

/-- C1: for every configured method, the chain built by `start_server`
is assembled in the fixed order: the block-hash injector (when
configured), then the block-number injector (when configured), then the
cache stage exactly when the method enables caching, then the
upstream-forwarding stage last. -/
theorem chain_assembled_in_fixed_order (m : MethodConfig) :
    buildMethodChain m =
      hashInjectorPart m ++ numberInjectorPart m ++ cacheStagePart m ++ [Stage.upstream]
    ∧ (∀ s ∈ hashInjectorPart m ++ numberInjectorPart m, ∃ inj, s = Stage.injectParams inj)
    ∧ (cacheStagePart m ≠ [] ↔ 0 < m.cache)
    ∧ (buildMethodChain m).getLast? = some Stage.upstream := by
  refine ⟨buildMethodChain_eq m, ?_, ?_, ?_⟩
  · intro s hs
    rcases List.mem_append.1 hs with h | h
    · unfold hashInjectorPart at h
      cases hb : m.with_block_hash with
      | some i => rw [hb] at h; simp at h; exact ⟨_, h⟩
      | none => rw [hb] at h; simp at h
    · unfold numberInjectorPart at h
      cases hn : m.with_block_number with
      | some i => rw [hn] at h; simp at h; exact ⟨_, h⟩
      | none => rw [hn] at h; simp at h
  · unfold cacheStagePart
    split <;> simp_all
  · rw [buildMethodChain_eq]
    exact List.getLast?_concat _

/-- C8: a cache stage is part of a method's chain exactly when the
configured cache capacity is strictly positive (`0` = disabled), and
the stage then carries a per-method cache of exactly that capacity;
moreover the chain contains at most one cache stage (each enabled
method gets exactly one freshly constructed cache of its own). -/
theorem cache_stage_iff_positive_capacity (m : MethodConfig) (c : Nat) :
    (Stage.cacheStage c ∈ buildMethodChain m ↔ 0 < m.cache ∧ c = m.cache)
    ∧ (buildMethodChain m).count (Stage.cacheStage m.cache)
        = (if 0 < m.cache then 1 else 0) := by
  rcases m with ⟨name, hb, hn, cap⟩
  by_cases hc : 0 < cap <;>
    cases hb <;> cases hn <;>
      simp_all [buildMethodChain, hashInjectorPart, numberInjectorPart, cacheStagePart,
        List.count_append, List.count_cons, hc]

theorem runChain_fst_of_snd_true (env : Env) :
    ∀ (stages : List Stage) (req : CallRequest), (runChain env stages req).2 = true →
      (runChain env stages req).1 = Except.error (CallError.failed "Bad configuration") := by
  intro stages
  induction stages with
  | nil => intro req _; rfl
  | cons s rest ih =>
    intro req hreach
    cases s with
    | injectParams inj =>
      simp only [runChain] at hreach ⊢
      cases he : env.injectResult inj req.params with
      | error e => rw [he] at hreach; simp at hreach
      | ok ps => rw [he] at hreach; exact ih _ hreach
    | cacheStage cap =>
      simp only [runChain] at hreach ⊢
      cases hcv : env.cacheHit cap req with
      | some v => rw [hcv] at hreach; simp at hreach
      | none => rw [hcv] at hreach; exact ih _ hreach
    | upstream => simp only [runChain] at hreach; simp at hreach

/-- C2: whenever an invocation of a chain reaches the terminal
fallback, the chain's result is the `CallError::Failed` with message
"Bad configuration" and in particular never a success value.  (The
execution function is total by structural recursion on the stage list,
so an invocation also never hangs.) -/
theorem fallback_reached_returns_bad_configuration (env : Env) (stages : List Stage)
    (req : CallRequest) (hreach : (runChain env stages req).2 = true) :
    (runChain env stages req).1 = Except.error (CallError.failed "Bad configuration")
    ∧ ∀ v : Json, (runChain env stages req).1 ≠ Except.ok v := by
  have h1 := runChain_fst_of_snd_true env stages req hreach
  refine ⟨h1, fun v hv => ?_⟩
  rw [h1] at hv
  exact Except.noConfusion hv

/-- Concrete instantiation: in a chain whose explicit stage list is
empty, the fallback is reached and the result is the "Bad
configuration" error. -/
theorem fallback_reached_returns_bad_configuration_witness :
    (runChain envNoop [] { method := "m", params := [] }).2 = true
    ∧ (runChain envNoop [] { method := "m", params := [] }).1
        = Except.error (CallError.failed "Bad configuration") :=
  ⟨rfl, (fallback_reached_returns_bad_configuration envNoop []
    { method := "m", params := [] } rfl).1⟩

theorem runChain_no_fallback_of_upstream_mem (env : Env) :
    ∀ (stages : List Stage), Stage.upstream ∈ stages →
      ∀ req : CallRequest, (runChain env stages req).2 = false := by
  intro stages
  induction stages with
  | nil => intro h; cases h
  | cons s rest ih =>
    intro hmem req
    cases s with
    | injectParams inj =>
      have hrest : Stage.upstream ∈ rest := by
        cases hmem with
        | tail _ h => exact h
      simp only [runChain]
      cases he : env.injectResult inj req.params with
      | error e => rfl
      | ok ps => exact ih hrest _
    | cacheStage cap =>
      have hrest : Stage.upstream ∈ rest := by
        cases hmem with
        | tail _ h => exact h
      simp only [runChain]
      cases hcv : env.cacheHit cap req with
      | some v => rfl
      | none => exact ih hrest _
    | upstream => rfl

theorem upstream_mem_buildMethodChain (m : MethodConfig) :
    Stage.upstream ∈ buildMethodChain m := by
  rw [buildMethodChain_eq]
  exact List.mem_append.2 (Or.inr (List.mem_singleton.2 rfl))

/-- C10: the chain built for every configured method, and the chain
built for every configured subscription, has the upstream-forwarding
stage as its last explicit stage (it is unconditionally appended), so
under the modelled chain-walking semantics the terminal
"Bad configuration" fallback is never invoked on any request, in any
environment. -/
theorem upstream_last_and_fallback_unreachable (m : MethodConfig) (env : Env)
    (req : CallRequest) :
    (buildMethodChain m).getLast? = some Stage.upstream
    ∧ buildSubscriptionChain.getLast? = some Stage.upstream
    ∧ (runChain env (buildMethodChain m) req).2 = false
    ∧ (runChain env buildSubscriptionChain req).2 = false := by
  refine ⟨?_, rfl, ?_, rfl⟩
  · rw [buildMethodChain_eq]
    exact List.getLast?_concat _
  · exact runChain_no_fallback_of_upstream_mem env _ (upstream_mem_buildMethodChain m) req

/-- C7: a unary call whose parameters are not a JSON array fails with
an `InvalidParams` error and the method's middleware chain is not
invoked (invocation count 0); a parse failure likewise propagates the
parameter error without reaching the chain. -/
theorem invalid_params_never_reach_chain (chain : List Json → Except CallError Json)
    (v : Json) (hv : v.asArray = none) (msg : String) :
    registeredCallHandler chain (Except.ok v)
        = (Except.error (CallError.invalidParams "invalid params"), 0)
    ∧ registeredCallHandler chain (Except.error (CallError.invalidParams msg))
        = (Except.error (CallError.invalidParams msg), 0) := by
  constructor
  · simp [registeredCallHandler, hv]
  · rfl

/-- Concrete instantiation: `null` is not a JSON array, so the handler
rejects it with `InvalidParams` and never invokes the chain. -/
theorem invalid_params_never_reach_chain_witness :
    Json.asArray Json.null = none
    ∧ registeredCallHandler (fun _ => Except.ok Json.null) (Except.ok Json.null)
        = (Except.error (CallError.invalidParams "invalid params"), 0) :=
  ⟨rfl, (invalid_params_never_reach_chain (fun _ => Except.ok Json.null)
    Json.null rfl "m").1⟩

/-- C3 counterexample: at the concrete chain outcome "the upstream
subscription failed to open", the registered subscription handler still
returns success, refuting "returning success exactly when the upstream
subscription was opened" (the handler returns before — and regardless
of — the outcome of opening the upstream subscription). -/
theorem subscription_handler_claim_counterexample :
    ¬ (((registerSubscriptionHandler
          (Except.error (CallError.failed "upstream subscription failed"))).1
        = Except.ok ())
      ↔ ((Except.error (CallError.failed "upstream subscription failed")
            : Except CallError Unit)
          = Except.ok ())) := by
  intro h
  exact Except.noConfusion (h.mp rfl)

/-- C3 amended: the registered subscription handler spawns the relay
task and returns success immediately and unconditionally — its returned
value is `Ok(())` for every chain outcome and does not depend on
whether the upstream subscription was opened; the chain invocation
(including opening the upstream subscription and relaying) happens
entirely inside the spawned task, whose only handler-visible effect is
its log output. -/
theorem subscription_handler_returns_ok_unconditionally
    (outcome : Except CallError Unit) :
    (registerSubscriptionHandler outcome).1 = Except.ok ()
    ∧ (registerSubscriptionHandler outcome).2 = relayTaskLogs outcome
    ∧ ∀ o2 : Except CallError Unit,
        (registerSubscriptionHandler outcome).1 = (registerSubscriptionHandler o2).1 :=
  ⟨rfl, rfl, fun _ => rfl⟩

/-- C4 counterexample: at the concrete input "the subscription chain
ended in an upstream failure", the subscribe request's result is still
success — the failure is not surfaced as that request's result, it is
merely logged by the spawned task. -/
theorem upstream_failure_surfaced_counterexample :
    (registerSubscriptionHandler (Except.error (CallError.failed "upstream failure"))).1
        = Except.ok ()
    ∧ (registerSubscriptionHandler (Except.error (CallError.failed "upstream failure"))).1
        ≠ Except.error (CallError.failed "upstream failure")
    ∧ (registerSubscriptionHandler (Except.error (CallError.failed "upstream failure"))).2
        = ["Error while handling subscription: upstream failure"] := by
  refine ⟨rfl, fun h => Except.noConfusion h, rfl⟩

/-- C4 amended: for unary calls an upstream failure is surfaced to the
client verbatim as the call's result with exactly one chain invocation
(no retry); for subscriptions a failed chain invocation (including a
failed upstream subscription opening) is only logged by the spawned
relay task while the subscribe request's own result is success. -/
theorem upstream_failure_surfacing (chain : List Json → Except CallError Json)
    (ps : List Json) (e : CallError) (h : chain ps = Except.error e) :
    registeredCallHandler chain (Except.ok (Json.arr ps)) = (Except.error e, 1)
    ∧ ∀ e2 : CallError,
        (registerSubscriptionHandler (Except.error e2)).1 = Except.ok ()
        ∧ (registerSubscriptionHandler (Except.error e2)).2
            = ["Error while handling subscription: " ++ CallError.render e2] := by
  constructor
  · simp [registeredCallHandler, Json.asArray, h]
  · intro e2
    exact ⟨rfl, rfl⟩

/-- Concrete instantiation: a chain that fails with an upstream
failure makes the registered unary handler return exactly that error. -/
theorem upstream_failure_surfacing_witness :
    ((fun _ : List Json =>
        (Except.error (CallError.failed "upstream failure") : Except CallError Json)) []
      = Except.error (CallError.failed "upstream failure"))
    ∧ registeredCallHandler
        (fun _ : List Json =>
          (Except.error (CallError.failed "upstream failure") : Except CallError Json))
        (Except.ok (Json.arr []))
        = (Except.error (CallError.failed "upstream failure"), 1) :=
  ⟨rfl, (upstream_failure_surfacing
    (fun _ : List Json =>
      (Except.error (CallError.failed "upstream failure") : Except CallError Json))
    [] (CallError.failed "upstream failure") rfl).1⟩

/-- C5: a subscription chain invocation that ends in an error is
turned into exactly one log line by that subscription's spawned task;
the task produces no error value (its observable effect is only the
log), the registration layer still holds a successful handler result,
and the logs of concurrently running subscriptions are a function of
each subscription's own outcome alone — position `i` of the combined
log output agrees whenever the outcome at position `i` agrees,
whatever the other subscriptions did. -/
theorem relay_errors_logged_and_isolated (e : CallError)
    (outcomes1 outcomes2 : List (Except CallError Unit)) (i : Nat)
    (h : outcomes1[i]? = outcomes2[i]?) :
    relayTaskLogs (Except.error e)
        = ["Error while handling subscription: " ++ CallError.render e]
    ∧ relayTaskLogs (Except.ok ()) = []
    ∧ (registerSubscriptionHandler (Except.error e)).1 = Except.ok ()
    ∧ (outcomes1.map relayTaskLogs)[i]? = (outcomes2.map relayTaskLogs)[i]? := by
  refine ⟨rfl, rfl, rfl, ?_⟩
  rw [List.getElem?_map, List.getElem?_map, h]

/-- Concrete instantiation: one subscription whose chain fails is
logged, while an unrelated subscription's (empty) log is unchanged. -/
theorem relay_errors_logged_and_isolated_witness :
    (([Except.error (CallError.failed "stream error")]
        : List (Except CallError Unit))[0]?
      = ([Except.error (CallError.failed "stream error")]
          : List (Except CallError Unit))[0]?)
    ∧ relayTaskLogs (Except.error (CallError.failed "stream error"))
        = ["Error while handling subscription: stream error"] :=
  ⟨rfl, (relay_errors_logged_and_isolated (CallError.failed "stream error")
    [Except.error (CallError.failed "stream error")]
    [Except.error (CallError.failed "stream error")] 0 rfl).1⟩

theorem registerAllNames_ok_nodup :
    ∀ (ns : List String) (seen out : List String),
      registerAllNames seen ns = Except.ok out →
      ns.Nodup ∧ ∀ n ∈ ns, n ∉ seen := by
  intro ns
  induction ns with
  | nil =>
    intro seen out _
    exact ⟨List.nodup_nil, by simp⟩
  | cons n rest ih =>
    intro seen out h
    by_cases hn : n ∈ seen
    · rw [registerAllNames, registerName, if_pos hn] at h
      exact Except.noConfusion h
    · rw [registerAllNames, registerName, if_neg hn] at h
      obtain ⟨hrest, hnotin⟩ := ih (n :: seen) out h
      refine ⟨List.nodup_cons.2 ⟨?_, hrest⟩, ?_⟩
      · intro hmem
        exact (hnotin n hmem) (List.mem_cons_self n seen)
      · intro x hx
        cases hx with
        | head => exact hn
        | tail _ hx2 =>
          intro hxs
          exact (hnotin x hx2) (List.mem_cons_of_mem _ hxs)

theorem flatMap_subscription_names_perm (l : List SubscriptionConfig) :
    (l.flatMap fun s => [s.subscribe, s.unsubscribe]).Perm
      (l.map (fun s => s.subscribe) ++ l.map (fun s => s.unsubscribe)) := by
  induction l with
  | nil => simp
  | cons s rest ih =>
    simp only [List.flatMap_cons, List.map_cons, List.cons_append]
    refine List.Perm.cons _ ?_
    exact (ih.cons _).trans List.perm_middle.symm

theorem registrationNames_perm (cfg : RpcsConfig) :
    (registrationNames cfg).Perm ("rpc_methods" :: rpcMethodsList cfg) := by
  have hflat := flatMap_subscription_names_perm cfg.subscriptions
  have h1 : registrationNames cfg =
      cfg.methods.map (fun m => m.method) ++
        ("rpc_methods" ::
          (cfg.subscriptions.flatMap (fun s => [s.subscribe, s.unsubscribe])
            ++ cfg.aliases.map (fun a => a.2))) := by
    simp [registrationNames, List.append_assoc]
  rw [h1]
  refine List.perm_middle.trans (List.Perm.cons _ ?_)
  have h2 := (hflat.append_right (cfg.aliases.map (fun a => a.2))).append_left
      (cfg.methods.map (fun m => m.method))
  refine h2.trans ?_
  have h3 : cfg.methods.map (fun m => m.method) ++
      ((cfg.subscriptions.map (fun s => s.subscribe)
          ++ cfg.subscriptions.map (fun s => s.unsubscribe))
        ++ cfg.aliases.map (fun a => a.2)) = rpcMethodsList cfg := by
    simp [rpcMethodsList, List.append_assoc]
  rw [h3]

/-- C9: a configuration in which the same external name (a method
name, a subscribe or unsubscribe name, or an alias target) would be
registered more than once makes the registration phase of
`start_server` fail with an error at startup. -/
theorem duplicate_name_fails_startup (cfg : RpcsConfig)
    (hdup : ¬ (rpcMethodsList cfg).Nodup) :
    ∃ e, startServerRegistration cfg = Except.error e := by
  cases h : startServerRegistration cfg with
  | error e => exact ⟨e, rfl⟩
  | ok out =>
    exfalso
    apply hdup
    have hn := (registerAllNames_ok_nodup (registrationNames cfg) [] out h).1
    exact ((registrationNames_perm cfg).nodup_iff.mp hn).of_cons

/-- A configuration registering the same method name twice. -/
def cfgDupExample : RpcsConfig :=
  { methods :=
      [{ method := "m", with_block_hash := none, with_block_number := none, cache := 0 },
       { method := "m", with_block_hash := none, with_block_number := none, cache := 0 }],
    subscriptions := [],
    aliases := [] }

/-- Concrete instantiation: registering the method name "m" twice
makes startup fail. -/
theorem duplicate_name_fails_startup_witness :
    ¬ (rpcMethodsList cfgDupExample).Nodup
    ∧ ∃ e, startServerRegistration cfgDupExample = Except.error e :=
  ⟨by decide, duplicate_name_fails_startup cfgDupExample (by decide)⟩

/-- C6: for every configuration whose registration phase succeeds (the
only configurations for which the introspection result exists), the
`rpc_methods` list contains every configured method name, every
subscribe and unsubscribe name, and every alias target name exactly
once, with no duplicates. -/
theorem rpc_methods_complete_without_duplicates (cfg : RpcsConfig) (out : List String)
    (hok : startServerRegistration cfg = Except.ok out) :
    (rpcMethodsList cfg).Nodup
    ∧ (∀ m ∈ cfg.methods, (rpcMethodsList cfg).count m.method = 1)
    ∧ (∀ s ∈ cfg.subscriptions,
        (rpcMethodsList cfg).count s.subscribe = 1
        ∧ (rpcMethodsList cfg).count s.unsubscribe = 1)
    ∧ (∀ a ∈ cfg.aliases, (rpcMethodsList cfg).count a.2 = 1) := by
  have hn := (registerAllNames_ok_nodup (registrationNames cfg) [] out hok).1
  have hnd : (rpcMethodsList cfg).Nodup :=
    ((registrationNames_perm cfg).nodup_iff.mp hn).of_cons
  refine ⟨hnd, ?_, ?_, ?_⟩
  · intro m hm
    refine List.count_eq_one_of_mem hnd ?_
    exact List.mem_append.2 (Or.inl (List.mem_append.2 (Or.inl (List.mem_append.2
      (Or.inl (List.mem_map_of_mem _ hm))))))
  · intro s hs
    constructor
    · refine List.count_eq_one_of_mem hnd ?_
      exact List.mem_append.2 (Or.inl (List.mem_append.2 (Or.inl (List.mem_append.2
        (Or.inr (List.mem_map_of_mem _ hs))))))
    · refine List.count_eq_one_of_mem hnd ?_
      exact List.mem_append.2 (Or.inl (List.mem_append.2
        (Or.inr (List.mem_map_of_mem _ hs))))
  · intro a ha
    refine List.count_eq_one_of_mem hnd ?_
    exact List.mem_append.2 (Or.inr (List.mem_map_of_mem _ ha))

/-- A well-formed example configuration: one cached method with hash
injection, one subscription, one alias. -/
def cfgOkExample : RpcsConfig :=
  { methods :=
      [{ method := "chain_getBlock", with_block_hash := some 1,
         with_block_number := none, cache := 2 }],
    subscriptions :=
      [{ name := "chain_newHead", subscribe := "chain_subscribeNewHeads",
         unsubscribe := "chain_unsubscribeNewHeads" }],
    aliases := [("chain_getBlock", "eth_getBlock")] }

/-- Concrete instantiation: the example configuration registers
cleanly and its `rpc_methods` list is duplicate-free. -/
theorem rpc_methods_complete_without_duplicates_witness :
    startServerRegistration cfgOkExample
        = Except.ok ["eth_getBlock", "chain_unsubscribeNewHeads",
            "chain_subscribeNewHeads", "rpc_methods", "chain_getBlock"]
    ∧ (rpcMethodsList cfgOkExample).Nodup :=
  ⟨rfl, (rpc_methods_complete_without_duplicates cfgOkExample
    ["eth_getBlock", "chain_unsubscribeNewHeads",
      "chain_subscribeNewHeads", "rpc_methods", "chain_getBlock"] rfl).1⟩
